import Mathlib

/-!
Verification of the quantum-teleportation repository.

The development shallowly embeds the two pipelines of the repository:

* `QuantumDataTeleporter` (src/quantum_teleportation/quantum_data_teleporter.py):
  text to bits, one fixed six-qubit teleportation circuit per bit, noiseless
  simulation, plurality vote over the counts, bit flip of the first character
  of the outcome string, byte chunking, text reassembly, equality check.

* `BB84Protocol` (src/quantum_teleportation/bb84.py): text to bits, optional
  compression, zero fill alignment, one trivial one-qubit circuit per bit,
  plurality vote, byte chunking, decompression, equality check.

Machine integers are embedded as `Int` or `Nat`; Python floats are embedded as
exact rationals (`Rat`), and Python `round` (round half to even) is defined
explicitly.  Strings of `'0'`/`'1'` characters are embedded as `List Bool`,
texts as lists of byte values.  Quantum circuits are executed by an external
library (qiskit); the noiseless simulator is embedded as unnormalized integer
amplitude vectors: a measurement record has nonzero probability exactly when
the projected amplitude vector is nonzero, which is all the pipeline theorems
need.  Randomness (measurement sampling, random bit generation) and external
collaborators (compression codecs, file contents, noisy backends) enter as
explicit parameters.
-/

set_option maxRecDepth 10000

namespace QTRepo

/-- A byte value, the result of `ord` on one character of a text. -/
abbrev Byte := Fin 256

/-- A text is embedded as its list of byte values. -/
abbrev Text := List Byte

/-- Modelled from the spec: `utils.convert_text_to_binary` lives in
`quantum_teleportation/utils.py`, which is not under `src/`.  Spec section 3:
"Binary string: the text's bit representation; invariant - length is a
multiple of 8 when representing whole bytes."  One byte yields its eight bits,
most significant first. -/
def byteToBits (b : Byte) : List Bool :=
  [b.val.testBit 7, b.val.testBit 6, b.val.testBit 5, b.val.testBit 4,
   b.val.testBit 3, b.val.testBit 2, b.val.testBit 1, b.val.testBit 0]

/-- Modelled from the spec: inverse direction of the byte/bit representation,
reading eight bits most significant first (`utils.convert_binary_to_text`
applied to a single 8-bit chunk). -/
def bitsToByte (l : List Bool) : Byte :=
  ⟨(l.foldl (fun n b => 2 * n + b.toNat) 0) % 256, Nat.mod_lt _ (by norm_num)⟩

/-- Modelled from the spec: `utils.convert_text_to_binary` (see `byteToBits`). -/
def convert_text_to_binary (t : Text) : List Bool :=
  (t.map byteToBits).flatten

/-- Consecutive 8-bit chunks of a bit string.  This is the loop
`for i in range(0, len(merged_binary), 8)` of
`QuantumDataTeleporter.handle_flipped_results` and the slicing
`[decoded_binary[i : i + 8] for i in range(0, len(decoded_binary), 8)]` of
`BB84Protocol.run_protocol`. -/
def chunk8 (l : List Bool) : List (List Bool) :=
  if h : l = [] then []
  else l.take 8 :: chunk8 (l.drop 8)
termination_by l.length
decreasing_by
  simp only [List.length_drop]
  exact Nat.sub_lt (List.length_pos.mpr h) (by norm_num)

/-- Modelled from the spec: `utils.convert_binary_to_text` turns a list of
8-bit chunks back into the corresponding characters. -/
def convert_binary_to_text (chunks : List (List Bool)) : Text :=
  chunks.map bitsToByte

/-- Modelled from the spec: `utils.bit_flipper` flips a single bit character
(section 4, "Bit-flip/byte-chunking utilities"). -/
def bit_flipper (b : Bool) : Bool := !b

/-- `QuantumDataTeleporter.handle_flipped_results`: merge the flipped results
and separate the merged binary string into 8-bit bytes. -/
def handle_flipped_results (flipped_results : List (List Bool)) : List (List Bool) :=
  chunk8 flipped_results.flatten

/-- Python `str.zfill` on a string of bit characters: pad with `'0'` on the
left up to the requested width (no sign handling is needed, the strings
consist of `'0'`/`'1'` only). -/
def zfill (l : List Bool) (width : Nat) : List Bool :=
  List.replicate (width - l.length) false ++ l

/-- Python truthiness of an optional string argument: `None` and the empty
string are falsy. -/
def falsy (o : Option Text) : Bool :=
  match o with
  | none => true
  | some t => t.isEmpty

/-- Python `round` on an exact rational: round to the nearest integer, ties to
the even integer (banker's rounding). -/
def pyRound (q : ℚ) : ℤ :=
  if q - ⌊q⌋ < 1/2 then ⌊q⌋
  else if (1 : ℚ)/2 < q - ⌊q⌋ then ⌊q⌋ + 1
  else if ⌊q⌋ % 2 = 0 then ⌊q⌋ else ⌊q⌋ + 1

/-! ### Noiseless circuit simulation

The circuits built by the repository are Clifford circuits on computational
basis inputs, executed by the external `qasm_simulator`.  A run is embedded as
an unnormalized integer amplitude vector (the global `1/sqrt 2` factors of `h`
are dropped; only zero versus nonzero amplitudes matter below): a sequence of
measurement outcomes has nonzero probability in the simulator exactly when the
amplitude vector obtained by projecting at each measurement is nonzero. -/

/-- Unnormalized amplitude vector of an `n`-qubit register; index `i` is the
basis state whose bit `k` is the value of qubit `k`. -/
abbrev QState (n : Nat) := Fin (2 ^ n) → ℤ

/-- Value of qubit `k` in basis state `i`. -/
def qbitOf {n : Nat} (i : Fin (2 ^ n)) (k : Nat) : Bool :=
  i.val.testBit k

/-- Basis state `i` with qubit `k` flipped. -/
def flipQbit {n : Nat} (i : Fin (2 ^ n)) (k : Nat) : Fin (2 ^ n) :=
  ⟨(i.val ^^^ 2 ^ k) % 2 ^ n, Nat.mod_lt _ (Nat.pos_pow_of_pos n (by norm_num))⟩

/-- All qubits in state zero. -/
def initState (n : Nat) : QState n :=
  fun i => if i.val = 0 then 1 else 0

/-- Pauli X gate on qubit `k`. -/
def applyX {n : Nat} (k : Nat) (ψ : QState n) : QState n :=
  fun i => ψ (flipQbit i k)

/-- Identity gate (`circuit.id`); barriers are likewise no operations. -/
def applyId {n : Nat} (_k : Nat) (ψ : QState n) : QState n := ψ

/-- Hadamard gate on qubit `k`, without the global normalization factor. -/
def applyH {n : Nat} (k : Nat) (ψ : QState n) : QState n :=
  fun i =>
    if qbitOf i k then ψ (flipQbit i k) - ψ i
    else ψ i + ψ (flipQbit i k)

/-- Controlled X gate, control `c`, target `t`. -/
def applyCX {n : Nat} (c t : Nat) (ψ : QState n) : QState n :=
  fun i => if qbitOf i c then ψ (flipQbit i t) else ψ i

/-- Controlled Z gate on qubits `c` and `t`. -/
def applyCZ {n : Nat} (c t : Nat) (ψ : QState n) : QState n :=
  fun i => if qbitOf i c && qbitOf i t then -ψ i else ψ i

/-- Toffoli gate, controls `c1 c2`, target `t`. -/
def applyCCX {n : Nat} (c1 c2 t : Nat) (ψ : QState n) : QState n :=
  fun i => if qbitOf i c1 && qbitOf i c2 then ψ (flipQbit i t) else ψ i

/-- Projection onto measurement outcome `o` of qubit `k` (unnormalized). -/
def projQ {n : Nat} (k : Nat) (o : Bool) (ψ : QState n) : QState n :=
  fun i => if qbitOf i k = o then ψ i else 0

/-- One record of measurement outcomes of the six-qubit teleporter circuit, in
program order: `m0, m1` from `measure([0,1],[0,1])`, `c2out` from
`measure([2],[2])`, `c3out, c4out, c5out` from `measure([0,1,2],[3,4,5])` and
`c0out` from the final `measure([5],[0])`, which overwrites classical bit 0. -/
structure Trace where
  m0 : Bool
  m1 : Bool
  c2out : Bool
  c3out : Bool
  c4out : Bool
  c5out : Bool
  c0out : Bool
  deriving DecidableEq

instance : Fintype Trace :=
  Fintype.ofEquiv (Bool × Bool × Bool × Bool × Bool × Bool × Bool)
    { toFun := fun x => ⟨x.1, x.2.1, x.2.2.1, x.2.2.2.1, x.2.2.2.2.1, x.2.2.2.2.2.1, x.2.2.2.2.2.2⟩
      invFun := fun t => (t.m0, t.m1, t.c2out, t.c3out, t.c4out, t.c5out, t.c0out)
      left_inv := fun _ => rfl
      right_inv := fun _ => rfl }

/-- The fixed six-qubit circuit of `QuantumDataTeleporter.create_circuits`
(lines 92-118) built for one bit `b` of the binary text, run on the noiseless
simulator with the measurement outcomes of `tr`: the resulting unnormalized
amplitude vector.  Gate for gate as in the source; barriers are omitted as no
operations and each `measure` is a projection at its program point. -/
def teleporterRun (b : Bool) (tr : Trace) : QState 6 :=
  initState 6
  |> applyX (if b then 1 else 0)
  |> applyH 1
  |> applyCX 1 2
  |> applyCX 0 1
  |> applyH 0
  |> projQ 0 tr.m0
  |> projQ 1 tr.m1
  |> applyCX 1 2
  |> applyCZ 0 2
  |> projQ 2 tr.c2out
  |> projQ 0 tr.c3out
  |> projQ 1 tr.c4out
  |> projQ 2 tr.c5out
  |> applyCX 3 4
  |> applyCX 3 5
  |> applyCX 4 5
  |> applyCCX 3 4 5
  |> projQ 5 tr.c0out

/-- A trace is valid when its joint measurement record has nonzero probability
in the noiseless simulation of the circuit for bit `b`. -/
def validTrace (b : Bool) (tr : Trace) : Prop :=
  ∃ i, teleporterRun b tr i ≠ 0

instance (b : Bool) (tr : Trace) : Decidable (validTrace b tr) := by
  unfold validTrace; infer_instance

/-- The counts key the simulator reports for a teleporter shot with outcome
record `tr`: the classical register read most significant bit first,
`c5 c4 c3 c2 c1 c0`; classical bit 1 holds `m1` and classical bit 0 was
overwritten by the final measurement. -/
def measuredBits (tr : Trace) : List Bool :=
  [tr.c5out, tr.c4out, tr.c3out, tr.c2out, tr.m1, tr.c0out]

/-- The one-qubit circuit of `BB84Protocol.run_protocol` (lines 169-173) for
bit `b` (`x(0)` when the bit is one, `id(0)` otherwise, then `measure(0, 0)`),
run with measurement outcome `o`. -/
def bb84Run (b o : Bool) : QState 1 :=
  initState 1
  |> (if b then applyX 0 else applyId 0)
  |> projQ 0 o

/-- Outcome `o` has nonzero probability for the BB84 circuit of bit `b`. -/
def bb84Valid (b o : Bool) : Prop :=
  ∃ i, bb84Run b o i ≠ 0

instance (b o : Bool) : Decidable (bb84Valid b o) := by
  unfold bb84Valid; infer_instance

/-- Python `max(counts, key=counts.get)` over a nonempty association list:
keep the current element unless a later one has a strictly greater count, so
the first element attaining the maximal count is returned. -/
def maxKey {α : Type} (h : α × ℚ) (t : List (α × ℚ)) : α × ℚ :=
  t.foldl (fun best x => if best.2 < x.2 then x else best) h

/-- Python exceptions raised by the embedded code paths. -/
inductive PyErr where
  | valueError : PyErr
  | typeError : PyErr
  deriving DecidableEq

/-- One circuit of `QuantumDataTeleporter.circuits`: the fixed six-qubit
template of `create_circuits`, determined by the binary-text bit it encodes. -/
structure QTCircuit where
  bit : Bool
  deriving DecidableEq

/-- Number of instructions of the fixed template, the value of
`len(self.circuits[0])` in qiskit: 18 gates and barriers plus 5 single-qubit
measures plus the two multi-qubit measures contributing 2 and 3 entries. -/
def QTCircuit.size : Nat := 23

/-- The state of a `QuantumDataTeleporter` object after `__init__`. -/
structure TeleState where
  shots : ℤ
  text_to_send : Text
  binary_text : List Bool
  circuits : List QTCircuit
  noise_model : Bool

/-- Nonempty counts dictionary handed back by a noisy backend run, head
element plus remainder (external collaborator, left abstract). -/
abbrev Counts := (List Bool × ℚ) × List (List Bool × ℚ)

end QTRepo

namespace BB84Protocol

open QTRepo

/-- `BB84Protocol.calculate_adaptive_shots` (src/quantum_teleportation/bb84.py,
lines 95-134).  Python ints are embedded as `Int` and the float arithmetic as
exact rational arithmetic; the source computes the averaged term first and then
overwrites it when `confidence_level > 0.90`, which is the `if` below.  The
result type is `Rat` because the high-confidence branch returns a float. -/
def calculate_adaptive_shots (circuit_complexity text_length : ℤ)
    (confidence_level : ℚ) (base_shots max_shots : ℤ) : ℚ :=
  let additional_shots_complexity : ℤ :=
    min (circuit_complexity * 5) (max_shots - base_shots)
  let additional_shots_length : ℚ :=
    min ((text_length : ℚ) * (1/10)) ((max_shots - base_shots : ℤ) : ℚ)
  let additional_shots : ℚ :=
    if confidence_level > 9/10 then
      min ((circuit_complexity : ℚ) * (3/2)) ((max_shots - base_shots : ℤ) : ℚ)
    else
      ((pyRound (((additional_shots_complexity : ℤ) + additional_shots_length) / 2) : ℤ) : ℚ)
  (base_shots : ℚ) + additional_shots

end BB84Protocol

namespace QuantumDataTeleporter

open QTRepo

/-- `QuantumDataTeleporter.calculate_adaptive_shots`
(src/quantum_teleportation/quantum_data_teleporter.py, lines 46-70).  Same
embedding conventions as the BB84 variant; the call sites use the defaults
`confidence_level=0.90`, `base_shots=0`, `max_shots=5`. -/
def calculate_adaptive_shots (circuit_complexity : ℤ)
    (confidence_level : ℚ) (base_shots max_shots : ℤ) : ℚ :=
  let additional_shots : ℚ :=
    if confidence_level > 9/10 then
      min ((circuit_complexity : ℚ) * (3/2)) ((max_shots - base_shots : ℤ) : ℚ)
    else
      ((min (circuit_complexity * 5) (max_shots - base_shots) : ℤ) : ℚ)
  (base_shots : ℚ) + additional_shots

end QuantumDataTeleporter


namespace QuantumDataTeleporter

open QTRepo

/-- `QuantumDataTeleporter.__init__` (lines 17-44).  `file_path` and
`text_to_send` are optional strings; `fileContent` stands for the text
`utils.text_from_file` reads when a file path is used (modelled from the spec:
"reads plain text from a file path or accepts an in-memory string", the
utility module is not under `src/`).  Raises `ValueError` when both arguments
are falsy, otherwise builds the binary text and one circuit per bit. -/
def init (shots : ℤ) (file_path text_to_send : Option Text) (fileContent : Text)
    (noise_model : Bool) : Except PyErr TeleState :=
  if falsy file_path && falsy text_to_send then
    .error .valueError
  else
    let text := if falsy file_path then text_to_send.getD [] else fileContent
    let binary := convert_text_to_binary text
    .ok { shots := shots
          text_to_send := text
          binary_text := binary
          circuits := binary.map QTCircuit.mk
          noise_model := noise_model }

/-- `QuantumDataTeleporter.run_simulation` (lines 131-192).  The result triple
is the value written to `self.shots` together with the returned pair
`(converted_chunks, converted_chunks == self.text_to_send)`.

With empty circuits the argument of `calculate_adaptive_shots` is
`len(self.circuits[0] if self.circuits else 0) = len(0)`, a `TypeError`.
Otherwise the noiseless branch executes every circuit with hardcoded
`shots=1`, so the counts of circuit `i` are the singleton dictionary on the
classical register of the sampled outcome record `rand i`; the noisy branch
(`AerSimulator.from_backend`) is an external collaborator and its counts enter
as the oracle `noiseCounts`.  Line 168 takes the plurality key, line 170 flips
its first character, and the flipped results are merged, chunked into bytes
and converted back to text. -/
def run_simulation (st : TeleState) (rand : Nat → Trace)
    (noiseCounts : Nat → Counts) : Except PyErr (ℚ × Text × Bool) :=
  if st.circuits.isEmpty then .error .typeError
  else
    let shots' : ℚ := calculate_adaptive_shots (QTCircuit.size : ℤ) (9/10) 0 5
    let flipped_results : List (List Bool) :=
      (List.range st.circuits.length).map (fun i =>
        if st.noise_model then
          [bit_flipper (((maxKey (noiseCounts i).1 (noiseCounts i).2).1).headD false)]
        else
          [bit_flipper (((maxKey (measuredBits (rand i), (1 : ℚ)) []).1).headD false)])
    let converted_chunks := convert_binary_to_text (handle_flipped_results flipped_results)
    .ok (shots', converted_chunks, decide (converted_chunks = st.text_to_send))

end QuantumDataTeleporter

namespace BB84Protocol

open QTRepo

/-- The compression strategies selected by the `compression` argument:
`"brotli"`, `"adaptive"`, or anything else (the repository passes `False`). -/
inductive Compression where
  | brotli : Compression
  | adaptive : Compression
  | off : Compression
  deriving DecidableEq

/-- The state of a `BB84Protocol` object after `__init__`. -/
structure BB84State where
  data : Text
  compression : Compression
  noise_model : Bool
  shots : ℤ
  binary_data : List Bool
  key_bits : List Bool
  base_bits : List Bool

/-- `BB84Protocol.generate_random_bits`: a string of `length` random bits,
with the random source entering as the explicit sequence `rand`. -/
def generate_random_bits (rand : Nat → Bool) (length : Nat) : List Bool :=
  (List.range length).map rand

/-- The binary data after the optional compression step of `__init__`
(lines 70-75): the compressed text re-encoded as bits for `"brotli"` and
`"adaptive"`, the original binary data otherwise.  The codecs
(`c_utils.brotli_compression`, `c_utils.adaptive_compression`) are external
collaborators and enter as abstract functions from the binary string to the
compressed text. -/
def compressedBinary (binary : List Bool) (compression : Compression)
    (brotliComp adaptiveComp : List Bool → Text) : List Bool :=
  match compression with
  | .brotli => convert_text_to_binary (brotliComp binary)
  | .adaptive => convert_text_to_binary (adaptiveComp binary)
  | .off => binary

/-- `BB84Protocol.__init__` (lines 37-81): convert the data to bits, draw key
and base bit strings of the same length, optionally compress, then zero fill
all three strings to the maximum of their lengths. -/
def init (data : Text) (compression : Compression) (noise_model : Bool)
    (shots : ℤ) (randKey randBase : Nat → Bool)
    (brotliComp adaptiveComp : List Bool → Text) : BB84State :=
  let binary_data := convert_text_to_binary data
  let data_length := binary_data.length
  let key_bits := generate_random_bits randKey data_length
  let base_bits := generate_random_bits randBase data_length
  let binary_data2 := compressedBinary binary_data compression brotliComp adaptiveComp
  let max_length := max binary_data2.length (max key_bits.length base_bits.length)
  { data := data
    compression := compression
    noise_model := noise_model
    shots := shots
    binary_data := zfill binary_data2 max_length
    key_bits := zfill key_bits max_length
    base_bits := zfill base_bits max_length }

/-- Modelled from the spec: `compression_utils.decompress_data` is not under
`src/`.  Spec section 4: "Compression adapters: delegate to off-the-shelf
compression algorithms, selecting between two named strategies"; with
compression disabled the data passes through unchanged, otherwise the external
decompressors apply. -/
def decompress_data (t : Text) (compression : Compression)
    (brotliDec adaptiveDec : Text → Text) : Text :=
  match compression with
  | .brotli => brotliDec t
  | .adaptive => adaptiveDec t
  | .off => t

/-- `BB84Protocol.run_protocol` (lines 136-224).  The result is the value of
`self.shots` after the optional adaptive update together with the returned
pair `(decoded_text, decoded_text == self.data)`.

For each bit of the encoded data the one-qubit circuit is executed; on the
noiseless backend the counts are the singleton dictionary on the sampled
outcome `outs i` with `self.shots` samples, on the noisy backend they are the
oracle `noiseCounts`.  Line 180 takes the plurality key, which is appended
unflipped (line 184); the joined results are chunked into bytes, converted to
text and decompressed. -/
def run_protocol (st : BB84State) (outs : Nat → Bool)
    (noiseCounts : Nat → Counts) (brotliDec adaptiveDec : Text → Text) :
    ℚ × Text × Bool :=
  let encoded_data := st.binary_data
  let shots' : ℚ :=
    if st.shots = -1 then
      calculate_adaptive_shots (st.binary_data.length : ℤ) (st.binary_data.length : ℤ)
        (9/10) 250 4096
    else (st.shots : ℚ)
  let flipped_results : List (List Bool) :=
    (List.range encoded_data.length).map (fun i =>
      if st.noise_model then (maxKey (noiseCounts i).1 (noiseCounts i).2).1
      else (maxKey ([outs i], shots') []).1)
  let decoded_binary := flipped_results.flatten
  let decoded_text :=
    decompress_data (convert_binary_to_text (chunk8 decoded_binary))
      st.compression brotliDec adaptiveDec
  (shots', decoded_text, decide (decoded_text = st.data))

end BB84Protocol

namespace QTRepo

/-- Outcome record used by concrete witnesses: the valid noiseless record for
a zero bit with both teleportation measurements zero. -/
def sampleTrace : Trace :=
  ⟨false, false, true, false, false, true, false⟩

/-- A concrete teleporter state used by concrete witnesses. -/
def sampleTeleState : TeleState :=
  { shots := 1
    text_to_send := []
    binary_text := []
    circuits := [⟨false⟩]
    noise_model := false }

/-- A concrete BB84 state used by concrete witnesses. -/
def sampleBB84State : BB84Protocol.BB84State :=
  { data := []
    compression := .off
    noise_model := false
    shots := 3
    binary_data := []
    key_bits := []
    base_bits := [] }

/-- A trivial counts oracle for the unused noisy branch. -/
def noNoise : Nat → Counts := fun _ => (([], 0), [])

/-- The teleporter state built from the in-memory text `"A"`, used by
concrete witnesses. -/
def sampleInitState : TeleState :=
  { shots := 1
    text_to_send := [(65 : Fin 256)]
    binary_text := convert_text_to_binary [(65 : Fin 256)]
    circuits := (convert_text_to_binary [(65 : Fin 256)]).map QTCircuit.mk
    noise_model := false }

end QTRepo

namespace QTRepo

theorem byteToBits_length (b : Byte) : (byteToBits b).length = 8 := rfl

theorem bitsToByte_byteToBits : ∀ b : Byte, bitsToByte (byteToBits b) = b := by
  decide

theorem chunk8_nil : chunk8 [] = [] := by
  rw [chunk8]
  simp

theorem chunk8_cons8 (b rest : List Bool) (hb : b.length = 8) :
    chunk8 (b ++ rest) = b :: chunk8 rest := by
  have hne : b ++ rest ≠ [] := by
    intro h
    have := congrArg List.length h
    simp [hb] at this
  rw [chunk8, dif_neg hne, ← hb, List.take_left, List.drop_left]

theorem chunk8_flatten (l : List Bool) : (chunk8 l).flatten = l := by
  by_cases h : l = []
  · subst h; rw [chunk8_nil]; rfl
  · rw [chunk8, dif_neg h, List.flatten_cons, chunk8_flatten (l.drop 8),
      List.take_append_drop]
termination_by l.length
decreasing_by
  simp only [List.length_drop]
  exact Nat.sub_lt (List.length_pos.mpr h) (by norm_num)

theorem convert_text_to_binary_cons (b : Byte) (t : Text) :
    convert_text_to_binary (b :: t) = byteToBits b ++ convert_text_to_binary t := by
  simp [convert_text_to_binary]

theorem convert_roundtrip (t : Text) :
    convert_binary_to_text (chunk8 (convert_text_to_binary t)) = t := by
  induction t with
  | nil => simp [convert_text_to_binary, convert_binary_to_text, chunk8_nil]
  | cons b t ih =>
    rw [convert_text_to_binary_cons, chunk8_cons8 _ _ (byteToBits_length b)]
    unfold convert_binary_to_text at *
    rw [List.map_cons, bitsToByte_byteToBits, ih]

theorem pyRound_cases (q : ℚ) : pyRound q = ⌊q⌋ ∨ pyRound q = ⌊q⌋ + 1 := by
  unfold pyRound
  split_ifs <;> simp

theorem pyRound_nonneg (q : ℚ) (h : 0 ≤ q) : 0 ≤ pyRound q := by
  have h0 : (0 : ℤ) ≤ ⌊q⌋ := Int.floor_nonneg.mpr h
  rcases pyRound_cases q with h1 | h1 <;> omega

theorem pyRound_le (q : ℚ) (M : ℤ) (h : q ≤ (M : ℚ)) : pyRound q ≤ M := by
  have hf : ⌊q⌋ ≤ M := by
    have := Int.floor_le_floor h
    simpa using this
  rcases eq_or_lt_of_le hf with heq | hlt
  · have hq : q = (M : ℚ) := by
      refine le_antisymm h ?_
      rw [← heq]
      exact Int.floor_le q
    unfold pyRound
    rw [hq]
    norm_num
  · rcases pyRound_cases q with h1 | h1 <;> omega

theorem maxKey_cons {α : Type} (h x : α × ℚ) (t : List (α × ℚ)) :
    maxKey h (x :: t) = maxKey (if h.2 < x.2 then x else h) t := by
  simp [maxKey]

theorem maxKey_mem {α : Type} (h : α × ℚ) (t : List (α × ℚ)) :
    maxKey h t ∈ h :: t := by
  induction t generalizing h with
  | nil => simp [maxKey]
  | cons x xs ih =>
    rw [maxKey_cons]
    split_ifs with hc
    · rcases List.mem_cons.mp (ih x) with hm | hm
      · simp [hm]
      · simp [hm]
    · rcases List.mem_cons.mp (ih h) with hm | hm
      · simp [hm]
      · simp [hm]

theorem maxKey_le {α : Type} (h : α × ℚ) (t : List (α × ℚ)) :
    ∀ p ∈ h :: t, p.2 ≤ (maxKey h t).2 := by
  induction t generalizing h with
  | nil =>
    intro p hp
    rcases List.mem_cons.mp hp with hm | hm
    · subst hm; exact le_refl _
    · simp at hm
  | cons x xs ih =>
    intro p hp
    rw [maxKey_cons]
    have hstep : h.2 ≤ (if h.2 < x.2 then x else h).2 ∧
        x.2 ≤ (if h.2 < x.2 then x else h).2 := by
      split_ifs with hc
      · exact ⟨le_of_lt hc, le_refl _⟩
      · exact ⟨le_refl _, le_of_not_lt hc⟩
    rcases List.mem_cons.mp hp with hm | hm
    · subst hm
      exact le_trans hstep.1 (ih _ _ (List.mem_cons_self _ _))
    rcases List.mem_cons.mp hm with hm2 | hm2
    · subst hm2
      exact le_trans hstep.2 (ih _ _ (List.mem_cons_self _ _))
    · exact ih _ p (List.mem_cons.mpr (Or.inr hm2))

theorem zfill_length (l : List Bool) (w : Nat) (h : l.length ≤ w) :
    (zfill l w).length = w := by
  simp [zfill]
  omega

theorem zfill_self (l : List Bool) : zfill l l.length = l := by
  simp [zfill]

theorem flatten_map_singleton {α β : Type} (l : List α) (f : α → β) :
    (l.map (fun x => [f x])).flatten = l.map f := by
  induction l with
  | nil => simp
  | cons a t ih => simp [ih]

theorem range_map_getD {α : Type} (l : List α) (d : α) :
    (List.range l.length).map (fun i => l.getD i d) = l := by
  induction l with
  | nil => simp
  | cons a t ih =>
    rw [List.length_cons, List.range_succ_eq_map, List.map_cons, List.map_map]
    have h1 : (a :: t).getD 0 d = a := rfl
    have h2 : ((fun i => (a :: t).getD i d) ∘ (· + 1)) = fun i => t.getD i d := by
      funext i
      simp [List.getD_cons_succ]
    rw [h1, h2, ih]

theorem validTrace_c5out : ∀ (b : Bool) (tr : Trace),
    validTrace b tr → tr.c5out = !b := by
  decide

theorem bb84Valid_iff : ∀ b o : Bool, bb84Valid b o ↔ o = b := by
  decide

end QTRepo

namespace QTRepo

theorem bb84_shots_bounds (c l : ℤ) (conf : ℚ) (b m : ℤ)
    (hc : 0 ≤ c) (hl : 0 ≤ l) (hbm : b ≤ m) :
    (b : ℚ) ≤ BB84Protocol.calculate_adaptive_shots c l conf b m ∧
    BB84Protocol.calculate_adaptive_shots c l conf b m ≤ (m : ℚ) := by
  simp only [BB84Protocol.calculate_adaptive_shots]
  have hM0 : (0 : ℤ) ≤ m - b := by omega
  have hM0q : (0 : ℚ) ≤ ((m - b : ℤ) : ℚ) := by exact_mod_cast hM0
  split_ifs with hconf
  · have h1 : (0 : ℚ) ≤ min ((c : ℚ) * (3/2)) ((m - b : ℤ) : ℚ) := by
      refine le_min ?_ hM0q
      have : (0 : ℚ) ≤ (c : ℚ) := by exact_mod_cast hc
      nlinarith
    have h2 : min ((c : ℚ) * (3/2)) ((m - b : ℤ) : ℚ) ≤ ((m - b : ℤ) : ℚ) :=
      min_le_right _ _
    constructor
    · linarith
    · have : ((m - b : ℤ) : ℚ) = (m : ℚ) - (b : ℚ) := by push_cast; ring
      linarith
  · have hasc0 : (0 : ℤ) ≤ min (c * 5) (m - b) :=
      le_min (by nlinarith) hM0
    have hascM : min (c * 5) (m - b) ≤ m - b := min_le_right _ _
    have hasl0 : (0 : ℚ) ≤ min ((l : ℚ) * (1/10)) ((m - b : ℤ) : ℚ) := by
      refine le_min ?_ hM0q
      have : (0 : ℚ) ≤ (l : ℚ) := by exact_mod_cast hl
      nlinarith
    have haslM : min ((l : ℚ) * (1/10)) ((m - b : ℤ) : ℚ) ≤ ((m - b : ℤ) : ℚ) :=
      min_le_right _ _
    have havg0 : (0 : ℚ) ≤ (((min (c * 5) (m - b) : ℤ) : ℚ) +
        min ((l : ℚ) * (1/10)) ((m - b : ℤ) : ℚ)) / 2 := by
      have : (0 : ℚ) ≤ ((min (c * 5) (m - b) : ℤ) : ℚ) := by exact_mod_cast hasc0
      linarith
    have havgM : (((min (c * 5) (m - b) : ℤ) : ℚ) +
        min ((l : ℚ) * (1/10)) ((m - b : ℤ) : ℚ)) / 2 ≤ ((m - b : ℤ) : ℚ) := by
      have : ((min (c * 5) (m - b) : ℤ) : ℚ) ≤ ((m - b : ℤ) : ℚ) := by
        exact_mod_cast hascM
      linarith
    have hr0 : (0 : ℤ) ≤ pyRound _ := pyRound_nonneg _ havg0
    have hrM : pyRound _ ≤ m - b := pyRound_le _ _ havgM
    constructor
    · have : (0 : ℚ) ≤ ((pyRound ((((min (c * 5) (m - b) : ℤ) : ℚ) +
          min ((l : ℚ) * (1/10)) ((m - b : ℤ) : ℚ)) / 2) : ℤ) : ℚ) := by
        exact_mod_cast hr0
      linarith
    · have h5 : ((pyRound ((((min (c * 5) (m - b) : ℤ) : ℚ) +
          min ((l : ℚ) * (1/10)) ((m - b : ℤ) : ℚ)) / 2) : ℤ) : ℚ) ≤
          ((m - b : ℤ) : ℚ) := by
        exact_mod_cast hrM
      have : ((m - b : ℤ) : ℚ) = (m : ℚ) - (b : ℚ) := by push_cast; ring
      linarith

theorem tele_shots_bounds (c : ℤ) (conf : ℚ) (b m : ℤ)
    (hc : 0 ≤ c) (hbm : b ≤ m) :
    (b : ℚ) ≤ QuantumDataTeleporter.calculate_adaptive_shots c conf b m ∧
    QuantumDataTeleporter.calculate_adaptive_shots c conf b m ≤ (m : ℚ) := by
  simp only [QuantumDataTeleporter.calculate_adaptive_shots]
  have hM0 : (0 : ℤ) ≤ m - b := by omega
  have hM0q : (0 : ℚ) ≤ ((m - b : ℤ) : ℚ) := by exact_mod_cast hM0
  have hmb : ((m - b : ℤ) : ℚ) = (m : ℚ) - (b : ℚ) := by push_cast; ring
  split_ifs with hconf
  · have h1 : (0 : ℚ) ≤ min ((c : ℚ) * (3/2)) ((m - b : ℤ) : ℚ) := by
      refine le_min ?_ hM0q
      have : (0 : ℚ) ≤ (c : ℚ) := by exact_mod_cast hc
      nlinarith
    have h2 : min ((c : ℚ) * (3/2)) ((m - b : ℤ) : ℚ) ≤ ((m - b : ℤ) : ℚ) :=
      min_le_right _ _
    exact ⟨by linarith, by linarith⟩
  · have hasc0 : (0 : ℤ) ≤ min (c * 5) (m - b) := le_min (by nlinarith) hM0
    have hascM : min (c * 5) (m - b) ≤ m - b := min_le_right _ _
    have h1 : (0 : ℚ) ≤ ((min (c * 5) (m - b) : ℤ) : ℚ) := by exact_mod_cast hasc0
    have h2 : ((min (c * 5) (m - b) : ℤ) : ℚ) ≤ ((m - b : ℤ) : ℚ) := by
      exact_mod_cast hascM
    exact ⟨by linarith, by linarith⟩

/-- C2: for every non-negative `circuit_complexity` and `text_length`, every
`confidence_level`, and `base_shots <= max_shots`, both
`calculate_adaptive_shots` variants return a value in
`[base_shots, max_shots]`.  Determinism is inherent in the embedding: both
source functions are pure functions of their arguments (they read no other
state), so they are embedded as Lean functions. -/
theorem c2_adaptive_shot_range (circuit_complexity text_length : ℤ)
    (confidence_level : ℚ) (base_shots max_shots : ℤ)
    (hc : 0 ≤ circuit_complexity) (hl : 0 ≤ text_length)
    (hbm : base_shots ≤ max_shots) :
    ((base_shots : ℚ) ≤ BB84Protocol.calculate_adaptive_shots circuit_complexity
        text_length confidence_level base_shots max_shots ∧
      BB84Protocol.calculate_adaptive_shots circuit_complexity text_length
        confidence_level base_shots max_shots ≤ (max_shots : ℚ)) ∧
    ((base_shots : ℚ) ≤ QuantumDataTeleporter.calculate_adaptive_shots
        circuit_complexity confidence_level base_shots max_shots ∧
      QuantumDataTeleporter.calculate_adaptive_shots circuit_complexity
        confidence_level base_shots max_shots ≤ (max_shots : ℚ)) :=
  ⟨bb84_shots_bounds _ _ _ _ _ hc hl hbm,
   tele_shots_bounds _ _ _ _ hc hbm⟩

/-- Witness for C2 at `circuit_complexity=2`, `text_length=3`,
`confidence_level=0.95`, `base_shots=250`, `max_shots=4096`. -/
theorem c2_adaptive_shot_range_witness :
    (0 : ℤ) ≤ 2 ∧ (0 : ℤ) ≤ 3 ∧ (250 : ℤ) ≤ 4096 ∧
    (((250 : ℤ) : ℚ) ≤ BB84Protocol.calculate_adaptive_shots 2 3 (19/20) 250 4096 ∧
      BB84Protocol.calculate_adaptive_shots 2 3 (19/20) 250 4096 ≤ ((4096 : ℤ) : ℚ)) ∧
    (((250 : ℤ) : ℚ) ≤ QuantumDataTeleporter.calculate_adaptive_shots 2 (19/20) 250 4096 ∧
      QuantumDataTeleporter.calculate_adaptive_shots 2 (19/20) 250 4096 ≤ ((4096 : ℤ) : ℚ)) := by
  have h := c2_adaptive_shot_range 2 3 (19/20) 250 4096 (by norm_num) (by norm_num)
    (by norm_num)
  exact ⟨by norm_num, by norm_num, by norm_num, h.1, h.2⟩

/-- C3: the BB84 `calculate_adaptive_shots` is `base_shots` plus an additional
term capped at `max_shots - base_shots`; the high-confidence branch is taken
exactly when `confidence_level > 0.90` strictly and then yields
`min(circuit_complexity * 1.5, max_shots - base_shots)`; otherwise the term is
the rounded average of the complexity and length contributions, so the result
depends on `confidence_level` only through the `> 0.90` test. -/
theorem c3_adaptive_shot_structure (c l : ℤ) (conf conf2 : ℚ) (b m : ℤ) :
    (BB84Protocol.calculate_adaptive_shots c l conf b m - (b : ℚ) ≤
      ((m - b : ℤ) : ℚ)) ∧
    (conf > 9/10 →
      BB84Protocol.calculate_adaptive_shots c l conf b m =
        (b : ℚ) + min ((c : ℚ) * (3/2)) ((m - b : ℤ) : ℚ)) ∧
    (¬ conf > 9/10 →
      BB84Protocol.calculate_adaptive_shots c l conf b m =
        (b : ℚ) + ((pyRound ((((min (c * 5) (m - b) : ℤ) : ℚ) +
          min ((l : ℚ) * (1/10)) ((m - b : ℤ) : ℚ)) / 2) : ℤ) : ℚ)) ∧
    ((conf > 9/10 ↔ conf2 > 9/10) →
      BB84Protocol.calculate_adaptive_shots c l conf b m =
        BB84Protocol.calculate_adaptive_shots c l conf2 b m) := by
  refine ⟨?_, ?_, ?_, ?_⟩
  · simp only [BB84Protocol.calculate_adaptive_shots]
    split_ifs with hconf
    · have := min_le_right ((c : ℚ) * (3/2)) ((m - b : ℤ) : ℚ)
      linarith
    · have hascM : min (c * 5) (m - b) ≤ m - b := min_le_right _ _
      have haslM : min ((l : ℚ) * (1/10)) ((m - b : ℤ) : ℚ) ≤ ((m - b : ℤ) : ℚ) :=
        min_le_right _ _
      have havgM : (((min (c * 5) (m - b) : ℤ) : ℚ) +
          min ((l : ℚ) * (1/10)) ((m - b : ℤ) : ℚ)) / 2 ≤ ((m - b : ℤ) : ℚ) := by
        have : ((min (c * 5) (m - b) : ℤ) : ℚ) ≤ ((m - b : ℤ) : ℚ) := by
          exact_mod_cast hascM
        linarith
      have hrM : pyRound _ ≤ m - b := pyRound_le _ _ havgM
      have : ((pyRound ((((min (c * 5) (m - b) : ℤ) : ℚ) +
          min ((l : ℚ) * (1/10)) ((m - b : ℤ) : ℚ)) / 2) : ℤ) : ℚ) ≤
          ((m - b : ℤ) : ℚ) := by exact_mod_cast hrM
      linarith
  · intro hconf
    simp only [BB84Protocol.calculate_adaptive_shots]
    rw [if_pos hconf]
  · intro hconf
    simp only [BB84Protocol.calculate_adaptive_shots]
    rw [if_neg hconf]
  · intro hiff
    simp only [BB84Protocol.calculate_adaptive_shots]
    by_cases hconf : conf > 9/10
    · rw [if_pos hconf, if_pos (hiff.mp hconf)]
    · rw [if_neg hconf, if_neg (fun h => hconf (hiff.mpr h))]

/-- Witness for C3 at `c=4`, `l=7`, `conf=0.95`, `conf2=0.99`, `b=250`,
`m=4096`. -/
theorem c3_adaptive_shot_structure_witness :
    ((95/100 : ℚ) > 9/10) ∧
    BB84Protocol.calculate_adaptive_shots 4 7 (95/100) 250 4096 =
      ((250 : ℤ) : ℚ) + min (((4 : ℤ) : ℚ) * (3/2)) ((4096 - 250 : ℤ) : ℚ) ∧
    BB84Protocol.calculate_adaptive_shots 4 7 (95/100) 250 4096 =
      BB84Protocol.calculate_adaptive_shots 4 7 (99/100) 250 4096 := by
  have h := c3_adaptive_shot_structure 4 7 (95/100) (99/100) 250 4096
  exact ⟨by norm_num, h.2.1 (by norm_num), h.2.2.2 (by norm_num)⟩

/-- C4 (code bug): with `confidence_level > 0.90` the additional term
`min(circuit_complexity * 1.5, max_shots - base_shots)` is a float, and for
odd `circuit_complexity` the returned value is not an integer, contradicting
the `-> int` annotation and docstring of both variants: at
`circuit_complexity=1`, `confidence_level=0.95` the BB84 variant returns
`251.5` and the teleporter variant returns `1.5`. -/
theorem c4_shot_count_not_integer :
    BB84Protocol.calculate_adaptive_shots 1 1 (95/100) 250 4096 = 503/2 ∧
    QuantumDataTeleporter.calculate_adaptive_shots 1 (95/100) 0 5 = 3/2 ∧
    (∀ n : ℤ, (n : ℚ) ≠ BB84Protocol.calculate_adaptive_shots 1 1 (95/100) 250 4096) ∧
    (∀ n : ℤ, (n : ℚ) ≠ QuantumDataTeleporter.calculate_adaptive_shots 1 (95/100) 0 5) := by
  have h1 : BB84Protocol.calculate_adaptive_shots 1 1 (95/100) 250 4096 = 503/2 := by
    simp only [BB84Protocol.calculate_adaptive_shots]
    rw [if_pos (by norm_num : (95/100 : ℚ) > 9/10)]
    rw [min_eq_left (by push_cast; norm_num)]
    push_cast
    norm_num
  have h2 : QuantumDataTeleporter.calculate_adaptive_shots 1 (95/100) 0 5 = 3/2 := by
    simp only [QuantumDataTeleporter.calculate_adaptive_shots]
    rw [if_pos (by norm_num : (95/100 : ℚ) > 9/10)]
    rw [min_eq_left (by push_cast; norm_num)]
    push_cast
    norm_num
  refine ⟨h1, h2, ?_, ?_⟩
  · intro n h
    rw [h1] at h
    have h3 : (2 * n : ℚ) = 503 := by
      rw [h] at *
      linarith [h]
    have h4 : (2 * n : ℤ) = 503 := by exact_mod_cast h3
    omega
  · intro n h
    rw [h2] at h
    have h3 : (2 * n : ℚ) = 3 := by linarith [h]
    have h4 : (2 * n : ℤ) = 3 := by exact_mod_cast h3
    omega

/-- C5: splitting a bit string of length `8 * k` into consecutive 8-bit
chunks, as `handle_flipped_results` and the slicing in `run_protocol` do, and
concatenating the chunks back reproduces the original string. -/
theorem c5_byte_chunking_roundtrip (s : List Bool) (k : Nat)
    (h : s.length = 8 * k) :
    (handle_flipped_results [s]).flatten = s ∧ (chunk8 s).flatten = s := by
  have h2 := chunk8_flatten s
  constructor
  · simpa [handle_flipped_results] using h2
  · exact h2

/-- Witness for C5 on one byte. -/
theorem c5_byte_chunking_roundtrip_witness :
    ([true, false, true, false, true, false, true, false] : List Bool).length = 8 * 1 ∧
    (chunk8 [true, false, true, false, true, false, true, false]).flatten =
      [true, false, true, false, true, false, true, false] :=
  ⟨by decide, (c5_byte_chunking_roundtrip _ 1 (by decide)).2⟩

/-- C7: `max(counts, key=counts.get)` over a nonempty counts dictionary, as
embedded by `maxKey`, returns an entry of the dictionary whose count is
greater than or equal to the count of every entry; no tie-break is imposed
beyond this. -/
theorem c7_plurality_selection {α : Type} (hd : α × ℚ) (tl : List (α × ℚ)) :
    maxKey hd tl ∈ hd :: tl ∧ ∀ p ∈ hd :: tl, p.2 ≤ (maxKey hd tl).2 :=
  ⟨maxKey_mem hd tl, maxKey_le hd tl⟩

/-- Witness for C7 on a two-entry counts list. -/
theorem c7_plurality_selection_witness :
    (([true], (1 : ℚ)) ∈ (([true], (1 : ℚ)) :: [([false], (2 : ℚ))])) ∧
    ([true], (1 : ℚ)).2 ≤ (maxKey ([true], (1 : ℚ)) [([false], (2 : ℚ))]).2 := by
  refine ⟨by simp, (c7_plurality_selection ([true], (1 : ℚ)) [([false], (2 : ℚ))]).2 _ ?_⟩
  simp

/-- C8: after `BB84Protocol.__init__`, the strings `binary_data`, `key_bits`
and `base_bits` all have length equal to the maximum of their pre-alignment
lengths, each being the left zero fill of its pre-alignment value. -/
theorem c8_operand_alignment (data : Text) (compression : BB84Protocol.Compression)
    (noise : Bool) (shots : ℤ) (randKey randBase : Nat → Bool)
    (brotliComp adaptiveComp : List Bool → Text) :
    (BB84Protocol.init data compression noise shots randKey randBase
        brotliComp adaptiveComp).binary_data.length =
      max (BB84Protocol.compressedBinary (convert_text_to_binary data)
            compression brotliComp adaptiveComp).length
        (max (BB84Protocol.generate_random_bits randKey
              (convert_text_to_binary data).length).length
          (BB84Protocol.generate_random_bits randBase
              (convert_text_to_binary data).length).length) ∧
    (BB84Protocol.init data compression noise shots randKey randBase
        brotliComp adaptiveComp).key_bits.length =
      (BB84Protocol.init data compression noise shots randKey randBase
        brotliComp adaptiveComp).binary_data.length ∧
    (BB84Protocol.init data compression noise shots randKey randBase
        brotliComp adaptiveComp).base_bits.length =
      (BB84Protocol.init data compression noise shots randKey randBase
        brotliComp adaptiveComp).binary_data.length ∧
    (BB84Protocol.init data compression noise shots randKey randBase
        brotliComp adaptiveComp).binary_data =
      zfill (BB84Protocol.compressedBinary (convert_text_to_binary data)
          compression brotliComp adaptiveComp)
        (max (BB84Protocol.compressedBinary (convert_text_to_binary data)
              compression brotliComp adaptiveComp).length
          (max (BB84Protocol.generate_random_bits randKey
                (convert_text_to_binary data).length).length
            (BB84Protocol.generate_random_bits randBase
                (convert_text_to_binary data).length).length)) ∧
    (BB84Protocol.init data compression noise shots randKey randBase
        brotliComp adaptiveComp).key_bits =
      zfill (BB84Protocol.generate_random_bits randKey
          (convert_text_to_binary data).length)
        (max (BB84Protocol.compressedBinary (convert_text_to_binary data)
              compression brotliComp adaptiveComp).length
          (max (BB84Protocol.generate_random_bits randKey
                (convert_text_to_binary data).length).length
            (BB84Protocol.generate_random_bits randBase
                (convert_text_to_binary data).length).length)) ∧
    (BB84Protocol.init data compression noise shots randKey randBase
        brotliComp adaptiveComp).base_bits =
      zfill (BB84Protocol.generate_random_bits randBase
          (convert_text_to_binary data).length)
        (max (BB84Protocol.compressedBinary (convert_text_to_binary data)
              compression brotliComp adaptiveComp).length
          (max (BB84Protocol.generate_random_bits randKey
                (convert_text_to_binary data).length).length
            (BB84Protocol.generate_random_bits randBase
                (convert_text_to_binary data).length).length)) := by
  refine ⟨?_, ?_, ?_, rfl, rfl, rfl⟩
  · exact zfill_length _ _ (le_max_left _ _)
  · exact (zfill_length _ _ (le_trans (le_max_left _ _) (le_max_right _ _))).trans
      (zfill_length _ _ (le_max_left _ _)).symm
  · exact (zfill_length _ _ (le_trans (le_max_right _ _) (le_max_right _ _))).trans
      (zfill_length _ _ (le_max_left _ _)).symm

/-- C9: `QuantumDataTeleporter.__init__` raises `ValueError` exactly when both
`file_path` and `text_to_send` are absent (`None` or empty); otherwise the
state is fully initialized from the provided input. -/
theorem c9_missing_input_error (shots : ℤ) (file_path text_to_send : Option Text)
    (fileContent : Text) (noise : Bool) :
    (QuantumDataTeleporter.init shots file_path text_to_send fileContent noise =
        .error .valueError ↔ (falsy file_path = true ∧ falsy text_to_send = true)) ∧
    (∀ st, QuantumDataTeleporter.init shots file_path text_to_send fileContent
        noise = .ok st →
      st.shots = shots ∧ st.noise_model = noise ∧
      st.text_to_send = (if falsy file_path then text_to_send.getD [] else fileContent) ∧
      st.binary_text = convert_text_to_binary st.text_to_send ∧
      st.circuits = st.binary_text.map QTCircuit.mk) := by
  unfold QuantumDataTeleporter.init
  by_cases hf : (falsy file_path && falsy text_to_send) = true
  · rw [if_pos hf]
    have := Bool.and_eq_true_iff.mp hf
    constructor
    · simp [this]
    · intro st h
      exact absurd h (by simp)
  · rw [if_neg hf]
    have hne := Bool.and_eq_true_iff.not.mp hf
    constructor
    · constructor
      · intro h
        exact absurd h (by simp)
      · intro h
        exact absurd h hne
    · intro st h
      have hst := Except.ok.inj h
      subst hst
      refine ⟨rfl, rfl, rfl, rfl, rfl⟩

/-- Witness for C9: the in-memory text `"A"` yields a fully initialized
state. -/
theorem c9_missing_input_error_witness :
    QuantumDataTeleporter.init 1 none (some [(65 : Fin 256)]) [] false =
      .ok sampleInitState ∧
    sampleInitState.binary_text = convert_text_to_binary sampleInitState.text_to_send ∧
    sampleInitState.circuits = sampleInitState.binary_text.map QTCircuit.mk := by
  have hinit : QuantumDataTeleporter.init 1 none (some [(65 : Fin 256)]) [] false =
      .ok sampleInitState := rfl
  have h := (c9_missing_input_error 1 none (some [(65 : Fin 256)]) [] false).2
    sampleInitState hinit
  exact ⟨hinit, h.2.2.2.1, h.2.2.2.2⟩

end QTRepo

namespace QTRepo

theorem isEmpty_false_of_ne {α : Type} (l : List α) (h : l ≠ []) :
    l.isEmpty = false := by
  cases l with
  | nil => exact absurd rfl h
  | cons a t => rfl

theorem convert_text_to_binary_ne_nil (t : Text) (h : t ≠ []) :
    convert_text_to_binary t ≠ [] := by
  cases t with
  | nil => exact absurd rfl h
  | cons b t' =>
    rw [convert_text_to_binary_cons]
    simp [byteToBits]

theorem generate_length (rand : Nat → Bool) (n : Nat) :
    (BB84Protocol.generate_random_bits rand n).length = n := by
  simp [BB84Protocol.generate_random_bits]

theorem maxKey_nil {α : Type} (h : α × ℚ) : maxKey h [] = h := rfl

theorem tele_roundtrip (t : Text) (s : ℤ) (rand : Nat → Trace) (nc : Nat → Counts)
    (ht : t ≠ [])
    (hval : ∀ i, i < (convert_text_to_binary t).length →
      validTrace ((convert_text_to_binary t).getD i false) (rand i)) :
    ∃ st q, QuantumDataTeleporter.init s none (some t) [] false = .ok st ∧
      QuantumDataTeleporter.run_simulation st rand nc = .ok (q, t, true) := by
  refine ⟨{ shots := s, text_to_send := t,
            binary_text := convert_text_to_binary t,
            circuits := (convert_text_to_binary t).map QTCircuit.mk,
            noise_model := false },
          QuantumDataTeleporter.calculate_adaptive_shots (QTCircuit.size : ℤ) (9/10) 0 5,
          ?_, ?_⟩
  · cases t with
    | nil => exact absurd rfl ht
    | cons b t' => rfl
  · have hbne : convert_text_to_binary t ≠ [] := convert_text_to_binary_ne_nil t ht
    have hie : ((convert_text_to_binary t).map QTCircuit.mk).isEmpty = false := by
      cases hb : convert_text_to_binary t with
      | nil => exact absurd hb hbne
      | cons x xs => rfl
    have hflip : (List.range (((convert_text_to_binary t).map QTCircuit.mk).length)).map
        (fun i => [bit_flipper (((maxKey (measuredBits (rand i), (1 : ℚ)) []).1).headD false)]) =
        (List.range ((convert_text_to_binary t).length)).map
          (fun i => [(convert_text_to_binary t).getD i false]) := by
      rw [List.length_map]
      refine List.map_congr_left ?_
      intro i hi
      have hv := validTrace_c5out _ _ (hval i (List.mem_range.mp hi))
      simp [maxKey, measuredBits, bit_flipper, hv]
    rw [QuantumDataTeleporter.run_simulation, if_neg (by simp [hie])]
    show Except.ok
        (QuantumDataTeleporter.calculate_adaptive_shots (QTCircuit.size : ℤ) (9/10) 0 5,
         convert_binary_to_text (handle_flipped_results
           ((List.range (((convert_text_to_binary t).map QTCircuit.mk).length)).map
             (fun i => [bit_flipper (((maxKey (measuredBits (rand i), (1 : ℚ)) []).1).headD false)]))),
         decide (convert_binary_to_text (handle_flipped_results
           ((List.range (((convert_text_to_binary t).map QTCircuit.mk).length)).map
             (fun i => [bit_flipper (((maxKey (measuredBits (rand i), (1 : ℚ)) []).1).headD false)]))) = t)) =
      Except.ok (QuantumDataTeleporter.calculate_adaptive_shots (QTCircuit.size : ℤ) (9/10) 0 5, t, true)
    rw [hflip, handle_flipped_results, flatten_map_singleton, range_map_getD,
      convert_roundtrip]
    rw [show decide (t = t) = true from decide_eq_true rfl]

theorem bb84_roundtrip (d : Text) (s : ℤ) (outs : Nat → Bool) (nc : Nat → Counts)
    (randKey randBase : Nat → Bool) (bC aC : List Bool → Text) (bD aD : Text → Text)
    (hval : ∀ i, i < (convert_text_to_binary d).length →
      bb84Valid ((convert_text_to_binary d).getD i false) (outs i)) :
    (BB84Protocol.run_protocol (BB84Protocol.init d .off false s randKey randBase bC aC)
      outs nc bD aD).2 = (d, true) := by
  have hkb := generate_length randKey (convert_text_to_binary d).length
  have hbb := generate_length randBase (convert_text_to_binary d).length
  have hbd : (BB84Protocol.init d .off false s randKey randBase bC aC).binary_data =
      convert_text_to_binary d := by
    show zfill (BB84Protocol.compressedBinary (convert_text_to_binary d) .off bC aC)
        (max (BB84Protocol.compressedBinary (convert_text_to_binary d) .off bC aC).length
          (max (BB84Protocol.generate_random_bits randKey
              (convert_text_to_binary d).length).length
            (BB84Protocol.generate_random_bits randBase
              (convert_text_to_binary d).length).length)) =
      convert_text_to_binary d
    rw [show BB84Protocol.compressedBinary (convert_text_to_binary d) .off bC aC =
      convert_text_to_binary d from rfl]
    rw [hkb, hbb, max_self, max_self, zfill_self]
  have hmap : (List.range ((convert_text_to_binary d).length)).map (fun i => [outs i]) =
      (List.range ((convert_text_to_binary d).length)).map
        (fun i => [(convert_text_to_binary d).getD i false]) := by
    refine List.map_congr_left ?_
    intro i hi
    rw [(bb84Valid_iff _ _).mp (hval i (List.mem_range.mp hi))]
  rw [BB84Protocol.run_protocol]
  simp only [hbd,
    show (BB84Protocol.init d .off false s randKey randBase bC aC).noise_model = false
      from rfl,
    show (BB84Protocol.init d .off false s randKey randBase bC aC).compression =
      BB84Protocol.Compression.off from rfl,
    show (BB84Protocol.init d .off false s randKey randBase bC aC).data = d from rfl,
    maxKey_nil, Bool.false_eq_true, if_false]
  simp only [hmap, flatten_map_singleton, range_map_getD, convert_roundtrip,
    BB84Protocol.decompress_data]
  simp

/-- C1 (code bug at the empty text): for the teleporter, the state built from
a file whose content is empty has no circuits, and `run_simulation` then
raises `TypeError` (the argument of `calculate_adaptive_shots` is
`len(self.circuits[0] if self.circuits else 0) = len(0)`) instead of
returning the round-tripped text; for every nonempty text the noiseless
teleporter pipeline returns `(text, True)` for every measurement record of
nonzero probability, and the BB84 pipeline with compression disabled returns
`(data, True)` likewise for every text. -/
theorem c1_noiseless_roundtrip :
    (QuantumDataTeleporter.init 1 (some [(102 : Fin 256)]) none [] false =
        .ok { shots := 1, text_to_send := [], binary_text := [], circuits := [],
              noise_model := false } ∧
      ∀ (rand : Nat → Trace) (nc : Nat → Counts),
        QuantumDataTeleporter.run_simulation
          { shots := 1, text_to_send := [], binary_text := [], circuits := [],
            noise_model := false } rand nc = .error .typeError) ∧
    (∀ (t : Text) (s : ℤ) (rand : Nat → Trace) (nc : Nat → Counts),
      t ≠ [] →
      (∀ i, i < (convert_text_to_binary t).length →
        validTrace ((convert_text_to_binary t).getD i false) (rand i)) →
      ∃ st q, QuantumDataTeleporter.init s none (some t) [] false = .ok st ∧
        QuantumDataTeleporter.run_simulation st rand nc = .ok (q, t, true)) ∧
    (∀ (d : Text) (s : ℤ) (outs : Nat → Bool) (nc : Nat → Counts)
        (randKey randBase : Nat → Bool) (bC aC : List Bool → Text)
        (bD aD : Text → Text),
      (∀ i, i < (convert_text_to_binary d).length →
        bb84Valid ((convert_text_to_binary d).getD i false) (outs i)) →
      (BB84Protocol.run_protocol
          (BB84Protocol.init d .off false s randKey randBase bC aC) outs nc bD aD).2 =
        (d, true)) :=
  ⟨⟨rfl, fun _ _ => rfl⟩,
   fun t s rand nc ht hval => tele_roundtrip t s rand nc ht hval,
   fun d s outs nc randKey randBase bC aC bD aD hval =>
     bb84_roundtrip d s outs nc randKey randBase bC aC bD aD hval⟩

/-- Witness for C1: the one-byte text `[0]` round trips through the
teleporter with the concrete valid measurement record `sampleTrace`, and the
empty text round trips through the BB84 pipeline. -/
theorem c1_noiseless_roundtrip_witness :
    (∃ st q, QuantumDataTeleporter.init 1 none (some [(0 : Fin 256)]) [] false = .ok st ∧
      QuantumDataTeleporter.run_simulation st (fun _ => sampleTrace) noNoise =
        .ok (q, [(0 : Fin 256)], true)) ∧
    (BB84Protocol.run_protocol
        (BB84Protocol.init [] .off false 3 (fun _ => false) (fun _ => false)
          (fun _ => []) (fun _ => []))
        (fun _ => false) noNoise id id).2 = ([], true) := by
  constructor
  · exact c1_noiseless_roundtrip.2.1 [(0 : Fin 256)] 1 (fun _ => sampleTrace) noNoise
      (by simp) (by decide)
  · exact c1_noiseless_roundtrip.2.2 [] 3 (fun _ => false) noNoise (fun _ => false)
      (fun _ => false) (fun _ => []) (fun _ => []) id id (by decide)

/-- C6: the pair returned by `run_simulation` (when it returns) and by
`run_protocol` has second component `True` exactly when the first component
equals the originally sent text. -/
theorem c6_match_flag (st : TeleState) (rand : Nat → Trace) (nc : Nat → Counts)
    (st2 : BB84Protocol.BB84State) (outs : Nat → Bool) (nc2 : Nat → Counts)
    (bD aD : Text → Text) (h : st.circuits ≠ []) :
    (∃ r, QuantumDataTeleporter.run_simulation st rand nc = .ok r ∧
      (r.2.2 = true ↔ r.2.1 = st.text_to_send)) ∧
    ((BB84Protocol.run_protocol st2 outs nc2 bD aD).2.2 = true ↔
      (BB84Protocol.run_protocol st2 outs nc2 bD aD).2.1 = st2.data) := by
  constructor
  · rw [QuantumDataTeleporter.run_simulation,
      if_neg (by simp [isEmpty_false_of_ne _ h])]
    exact ⟨_, rfl, decide_eq_true_iff⟩
  · exact decide_eq_true_iff

/-- Witness for C6 on concrete states. -/
theorem c6_match_flag_witness :
    sampleTeleState.circuits ≠ [] ∧
    ((∃ r, QuantumDataTeleporter.run_simulation sampleTeleState
        (fun _ => sampleTrace) noNoise = .ok r ∧
      (r.2.2 = true ↔ r.2.1 = sampleTeleState.text_to_send)) ∧
    ((BB84Protocol.run_protocol sampleBB84State (fun _ => false) noNoise id id).2.2 =
        true ↔
      (BB84Protocol.run_protocol sampleBB84State (fun _ => false) noNoise id id).2.1 =
        sampleBB84State.data)) :=
  ⟨by simp [sampleTeleState],
   c6_match_flag sampleTeleState (fun _ => sampleTrace) noNoise sampleBB84State
     (fun _ => false) noNoise id id (by simp [sampleTeleState])⟩

/-- C10: the result of `run_simulation` does not depend on the state's `shots`
field; when the circuits are nonempty the shot count written by the run is
`calculate_adaptive_shots` of the fixed circuit size with the default
arguments, which equals 5 (the noiseless branch then executes each circuit
with hardcoded `shots=1`, see `run_simulation`). -/
theorem c10_shots_no_effect (st : TeleState) (s' : ℤ) (rand : Nat → Trace)
    (nc : Nat → Counts) :
    QuantumDataTeleporter.run_simulation { st with shots := s' } rand nc =
      QuantumDataTeleporter.run_simulation st rand nc ∧
    (st.circuits ≠ [] → ∃ t fl,
      QuantumDataTeleporter.run_simulation st rand nc =
        .ok (QuantumDataTeleporter.calculate_adaptive_shots
          (QTCircuit.size : ℤ) (9/10) 0 5, t, fl)) ∧
    QuantumDataTeleporter.calculate_adaptive_shots (QTCircuit.size : ℤ) (9/10) 0 5 = 5 := by
  refine ⟨?_, ?_, ?_⟩
  · cases st
    rfl
  · intro h
    rw [QuantumDataTeleporter.run_simulation,
      if_neg (by simp [isEmpty_false_of_ne _ h])]
    exact ⟨_, _, rfl⟩
  · simp only [QuantumDataTeleporter.calculate_adaptive_shots, QTCircuit.size]
    norm_num [min_def]

/-- Witness for C10 on a concrete state. -/
theorem c10_shots_no_effect_witness :
    sampleTeleState.circuits ≠ [] ∧
    ∃ t fl, QuantumDataTeleporter.run_simulation sampleTeleState
        (fun _ => sampleTrace) noNoise =
      .ok (QuantumDataTeleporter.calculate_adaptive_shots
        (QTCircuit.size : ℤ) (9/10) 0 5, t, fl) :=
  ⟨by simp [sampleTeleState],
   (c10_shots_no_effect sampleTeleState 0 (fun _ => sampleTrace) noNoise).2.1
     (by simp [sampleTeleState])⟩

end QTRepo
